import Mathlib

/-
Shallow embedding of the undo/redo engine in src/src/useUndoRedo.ts.

Value semantics: the engine stores snapshots of an arbitrary type T.
In the source, `safeStructuredClone` produces a structurally equal copy of a
value; in a pure value model cloning is the identity, so clone calls are
dropped.  `JSON.stringify` / `JSON.parse` are external serialization
primitives the engine calls through a codec; they are modelled as the
`stringify` / `parse` fields of `Codec`.  The cast `compressed as unknown as T`
(returning the raw text reinterpreted as a T) is modelled by `Codec.ofText`,
and JavaScript truthiness of a T value (used by the source in
`if (!batchInitialValueRef.current)` and similar guards) by `Codec.truthy`.

State: the React `useState` value (past/present/future/isCompressed/isBatching)
together with the four mutable refs (batchCountRef, batchInitialValueRef,
batchLastValueRef, errorInWithBatchRef) form one record `EngineState`.
Each operation is the corresponding `setState` updater plus its ref mutations,
applied in call order; callback invocations (onSet/onUndo/onRedo) are modelled
as an emitted `Event` list (an event is emitted exactly when the source would
call the corresponding callback, were one supplied).
-/

namespace UndoRedo

/-- Stored snapshot: either a live value (uncompressed deep clone) or
compressed text (`CompressedData = string` in the source). -/
inductive StoredData (T : Type) where
  | raw : T → StoredData T
  | text : String → StoredData T
deriving DecidableEq, Repr

/-- External serialization / JS-runtime capabilities the engine relies on:
`stringify` models JSON.stringify, `parse` models JSON.parse (None = throw),
`ofText` models the cast of a raw string to T, `truthy` models JS truthiness
of a T value. -/
structure Codec (T : Type) where
  stringify : T → String
  parse : String → Option T
  ofText : String → T
  truthy : T → Bool

/-- Engine options (the fields of `optionsRef.current`).  `equalFn` is the
user equality (default `a === b`); `maxHistorySize = some 0` models passing
the number 0, which the source treats as falsy (no cap). -/
structure Config (T : Type) where
  maxHistorySize : Option Nat
  equalFn : T → T → Bool
  compressHistory : Bool

/-- Full engine state: the `UndoRedoState` React state plus the four refs. -/
structure EngineState (T : Type) where
  past : List (StoredData T)
  present : T
  future : List (StoredData T)
  isCompressed : Bool
  isBatching : Bool
  batchCount : Nat
  batchInitialValue : Option T
  batchLastValue : Option T
  errorInWithBatch : Bool
deriving DecidableEq, Repr

/-- Callback invocation record: one event per callback call the source makes. -/
inductive Event (T : Type) where
  | onSet (prev next : T)
  | onUndo (prev next : T)
  | onRedo (prev next : T)
deriving DecidableEq, Repr

/-- Eviction policy from `set` / `endBatch`:
`maxHistorySize && newPast.length > maxHistorySize ? newPast.slice(-maxHistorySize) : newPast`.
A cap of 0 is falsy in JS, hence no trimming. -/
def limitPast (maxHistorySize : Option Nat) (l : List α) : List α :=
  match maxHistorySize with
  | none => l
  | some m => if m ≠ 0 ∧ m < l.length then l.drop (l.length - m) else l

/-- Snapshot encoding (`compressFn` and the inline
`compressHistory ? compress(x) : safeStructuredClone(x)` sites):
compressed text when compressHistory is on, otherwise the (cloned) value. -/
def encodeStored (cfg : Config T) (c : Codec T) (v : T) : StoredData T :=
  if cfg.compressHistory then StoredData.text (c.stringify v) else StoredData.raw v

/-- Source `decompress`: try to parse; on a parse exception return the raw
text itself, cast to T. -/
def decompress (c : Codec T) (s : String) : T :=
  match c.parse s with
  | some v => v
  | none => c.ofText s

/-- Source `decompressFn`: a non-string snapshot is returned unchanged; a
string snapshot is parsed when the state is compressed, otherwise returned
as-is (cast to T). -/
def decompressFn (c : Codec T) : StoredData T → Bool → T
  | StoredData.raw v, _ => v
  | StoredData.text s, true => decompress c s
  | StoredData.text s, false => c.ofText s

/-- Initial state built by `useState` plus fresh refs. -/
def initialState (cfg : Config T) (v : T) : EngineState T :=
  { past := [], present := v, future := [],
    isCompressed := cfg.compressHistory, isBatching := false,
    batchCount := 0, batchInitialValue := none, batchLastValue := none,
    errorInWithBatch := false }

/-- Source `set` (lines 153-206).  Equal value: no-op.  While batching:
record the value in batchLastValueRef, update present, clear future; if the
error flag is set and the batch baseline is truthy, additionally append the
encoded baseline to past (note: with no eviction applied).  Otherwise
(non-batching): fire onSet, append encoded present to past, apply eviction,
clear future. -/
def set (cfg : Config T) (c : Codec T) (s : EngineState T) (newValue : T) :
    EngineState T × List (Event T) :=
  if cfg.equalFn s.present newValue then (s, [])
  else if s.isBatching then
    match s.batchInitialValue with
    | some b =>
      if s.errorInWithBatch && c.truthy b then
        ({ s with batchLastValue := some newValue,
                  past := s.past ++ [encodeStored cfg c b],
                  present := newValue, future := [],
                  isCompressed := cfg.compressHistory, isBatching := true }, [])
      else
        ({ s with batchLastValue := some newValue,
                  present := newValue, future := [] }, [])
    | none =>
      ({ s with batchLastValue := some newValue,
                present := newValue, future := [] }, [])
  else
    ({ s with past := limitPast cfg.maxHistorySize
                        (s.past ++ [encodeStored cfg c s.present]),
              present := newValue, future := [],
              isCompressed := cfg.compressHistory, isBatching := false },
     [Event.onSet s.present newValue])

/-- Source `undo` (lines 208-233).  Empty past: no-op.  Otherwise pop the
last past snapshot, decode it into present, fire onUndo, push the encoded
old present onto the front of future, and set isBatching to false.  The
batch refs are not touched. -/
def undo (c : Codec T) (s : EngineState T) : EngineState T × List (Event T) :=
  match s.past.getLast? with
  | none => (s, [])
  | some previousStored =>
    let previous := decompressFn c previousStored s.isCompressed
    let storedPresent :=
      if s.isCompressed then StoredData.text (c.stringify s.present)
      else StoredData.raw s.present
    ({ s with past := s.past.dropLast, present := previous,
              future := storedPresent :: s.future, isBatching := false },
     [Event.onUndo s.present previous])

/-- Source `redo` (lines 235-259).  Empty future: no-op.  Otherwise shift the
first future snapshot, decode it into present, fire onRedo, append the
encoded old present to past (note: with no eviction applied), and set
isBatching to false.  The batch refs are not touched. -/
def redo (c : Codec T) (s : EngineState T) : EngineState T × List (Event T) :=
  match s.future with
  | [] => (s, [])
  | nextStored :: rest =>
    let next := decompressFn c nextStored s.isCompressed
    let storedPresent :=
      if s.isCompressed then StoredData.text (c.stringify s.present)
      else StoredData.raw s.present
    ({ s with past := s.past ++ [storedPresent], present := next,
              future := rest, isBatching := false },
     [Event.onRedo s.present next])

/-- Source `reset` (lines 261-274): `resetBatchState` plus a fresh state. -/
def reset (cfg : Config T) (v : T) : EngineState T :=
  initialState cfg v

/-- Source `startBatch` (lines 276-290): increment the nesting counter; on
the 0 → 1 transition capture present as baseline and last value; mark
isBatching. -/
def startBatch (s : EngineState T) : EngineState T × List (Event T) :=
  let count := s.batchCount + 1
  if count = 1 then
    ({ s with batchCount := count, batchInitialValue := some s.present,
              batchLastValue := some s.present, isBatching := true }, [])
  else
    ({ s with batchCount := count, isBatching := true }, [])

/-- Commit dedup test from `endBatch` lines 335-341:
`prev.past.length === 0 || !equalFn(decompressFn(past[last]), baseline)`. -/
def dedupAppend (cfg : Config T) (c : Codec T) (past : List (StoredData T))
    (isC : Bool) (b : T) : Bool :=
  match past.getLast? with
  | none => true
  | some last => !(cfg.equalFn (decompressFn c last isC) b)

/-- Source `endBatch` (lines 292-376).  Not batching: no-op.  Otherwise
decrement the counter (clamped at 0); if the counter stays positive and no
error is flagged, return (only the counter changed).  Past that point the
error flag is cleared on every path (line 306).  A missing or JS-falsy
baseline: only isBatching is recomputed.  A baseline equal to present:
no-op commit (refs cleared when the counter reached 0).  Otherwise fire
onSet(baseline, lastValue) when the counter reached 0 and the last value is
truthy, then append the encoded baseline to past (with eviction) unless the
dedup test rejects it, and clear future. -/
def endBatch (cfg : Config T) (c : Codec T) (s : EngineState T) :
    EngineState T × List (Event T) :=
  if s.isBatching = false then (s, [])
  else
    let count := s.batchCount - 1
    if count > 0 ∧ s.errorInWithBatch = false then
      ({ s with batchCount := count }, [])
    else
      match s.batchInitialValue with
      | none =>
        ({ s with batchCount := count, errorInWithBatch := false,
                  isBatching := decide (count > 0) }, [])
      | some b =>
        if c.truthy b = false then
          ({ s with batchCount := count, errorInWithBatch := false,
                    isBatching := decide (count > 0) }, [])
        else if cfg.equalFn b s.present then
          ({ s with batchCount := count, errorInWithBatch := false,
                    isBatching := decide (count > 0),
                    batchInitialValue :=
                      if count = 0 then none else s.batchInitialValue,
                    batchLastValue :=
                      if count = 0 then none else s.batchLastValue }, [])
        else
          let evs : List (Event T) :=
            match s.batchLastValue with
            | some l => if count = 0 ∧ c.truthy l then [Event.onSet b l] else []
            | none => []
          if dedupAppend cfg c s.past s.isCompressed b then
            ({ past := limitPast cfg.maxHistorySize
                         (s.past ++ [encodeStored cfg c b]),
               present := s.present, future := [],
               isCompressed := cfg.compressHistory,
               isBatching := decide (count > 0), batchCount := count,
               batchInitialValue :=
                 if count = 0 then none else s.batchInitialValue,
               batchLastValue :=
                 if count = 0 then none else s.batchLastValue,
               errorInWithBatch := false }, evs)
          else
            ({ s with batchCount := count, errorInWithBatch := false,
                      isBatching := decide (count > 0),
                      batchInitialValue :=
                        if count = 0 then none else s.batchInitialValue,
                      batchLastValue :=
                        if count = 0 then none else s.batchLastValue }, evs)

/-- One engine operation.  `markError` is the assignment
`errorInWithBatchRef.current = true` performed by the catch block of
`withBatch`; in any real execution it is immediately followed by the
`endBatch` of the finally block. -/
inductive Op (T : Type) where
  | set (v : T)
  | undo
  | redo
  | reset (v : T)
  | startBatch
  | endBatch
  | markError
deriving Repr

/-- Apply one operation. -/
def step (cfg : Config T) (c : Codec T) (s : EngineState T) :
    Op T → EngineState T × List (Event T)
  | Op.set v => set cfg c s v
  | Op.undo => undo c s
  | Op.redo => redo c s
  | Op.reset v => (reset cfg v, [])
  | Op.startBatch => startBatch s
  | Op.endBatch => endBatch cfg c s
  | Op.markError => ({ s with errorInWithBatch := true }, [])

/-- Apply a sequence of operations in call order, concatenating the emitted
callback events. -/
def run (cfg : Config T) (c : Codec T) (s : EngineState T) :
    List (Op T) → EngineState T × List (Event T)
  | [] => (s, [])
  | op :: rest =>
    let r1 := step cfg c s op
    let r2 := run cfg c r1.1 rest
    (r2.1, r1.2 ++ r2.2)

/-- Source `withBatch` specialised to the callback of claim C4, which
performs `set(x)` and then throws: startBatch, the set, the catch block
setting the error flag, the finally block calling endBatch.  The thrown
value is an Error object, which is truthy, so `if (error) throw error`
rethrows it: the returned Bool records that the exception propagated. -/
def withBatchSetThrow (cfg : Config T) (c : Codec T) (s : EngineState T)
    (x : T) : (EngineState T × List (Event T)) × Bool :=
  (run cfg c s [Op.startBatch, Op.set x, Op.markError, Op.endBatch], true)

/-- Property keys observable on the lazy history proxy (`historyData`,
lines 402-455).  `index n` is a numeric string key; `symIterStr` is the
string "Symbol(Symbol.iterator)" (what `Symbol.iterator.toString()`
yields); `symIter` stands for protocol-driven iteration (for...of, spread),
which reads the actual well-known Symbol.iterator symbol and then drives
the obtained iterator. -/
inductive PropAccess where
  | index (n : Nat)
  | lengthProp
  | mapProp
  | forEachProp
  | filterProp
  | sliceProp
  | symIterStr
  | symIter
deriving Repr

/-- Result of a property access on the lazy view: a single (possibly
undefined) element, the length, or the sequence of decoded elements the
access observes. -/
inductive GetResult (T : Type) where
  | val (v : Option T)
  | len (n : Nat)
  | seqDecoded (l : List T)
deriving DecidableEq, Repr

/-- The proxy `get` trap of `createLazyArray`.  String-typed keys that are
numeric, "length", map/forEach/filter/slice, or the literal text
"Symbol(Symbol.iterator)" are intercepted: a numeric key returns
`decompressFn(target[n])` (one decode per accessed element); map, forEach,
filter and slice operate on `target.map(decode)`; the generator registered
under the literal text yields decoded elements.  The read of the actual
Symbol.iterator symbol is not string-typed and falls through to
`Reflect.get`, which returns the inherited array iterator function — but
the iteration protocol then calls that function with the proxy as
receiver, so each length read and each element read it performs goes back
through this trap as a string key: protocol iteration therefore observes
the decoded elements in order, one decode per element. -/
def lazyArrayGet (c : Codec T) (stateIsCompressed : Bool)
    (items : List (StoredData T)) : PropAccess → GetResult T
  | PropAccess.lengthProp => GetResult.len items.length
  | PropAccess.mapProp =>
    GetResult.seqDecoded (items.map (fun it => decompressFn c it stateIsCompressed))
  | PropAccess.forEachProp =>
    GetResult.seqDecoded (items.map (fun it => decompressFn c it stateIsCompressed))
  | PropAccess.filterProp =>
    GetResult.seqDecoded (items.map (fun it => decompressFn c it stateIsCompressed))
  | PropAccess.sliceProp =>
    GetResult.seqDecoded (items.map (fun it => decompressFn c it stateIsCompressed))
  | PropAccess.symIterStr =>
    GetResult.seqDecoded (items.map (fun it => decompressFn c it stateIsCompressed))
  | PropAccess.index n =>
    GetResult.val ((items.get? n).map (fun it => decompressFn c it stateIsCompressed))
  | PropAccess.symIter =>
    GetResult.seqDecoded (items.map (fun it => decompressFn c it stateIsCompressed))

/-- Source `historyData` (lines 402-455): the memoised pair of lazy views
over the stored past and future, both decoding with the current state's
`isCompressed` flag. -/
def historyData (c : Codec T) (s : EngineState T) :
    (PropAccess → GetResult T) × (PropAccess → GetResult T) :=
  (lazyArrayGet c s.isCompressed s.past, lazyArrayGet c s.isCompressed s.future)

/-- A state whose batch machinery is idle: no open batch, zero nesting
depth, no pending error. -/
def Idle (s : EngineState T) : Prop :=
  s.isBatching = false ∧ s.batchCount = 0 ∧ s.errorInWithBatch = false

/-- Concrete serialization for Nat used to evaluate theorems: n is encoded
as a run of n letters a. -/
def natStringify (n : Nat) : String :=
  String.mk (List.replicate n 'a')

/-- Concrete parser for `natStringify`: a run of letters a parses to its
length, anything else fails to parse. -/
def natParse (s : String) : Option Nat :=
  if s.data.all (fun ch => ch == 'a') then some s.data.length else none

/-- Concrete cast of raw text to Nat (models `compressed as unknown as T`). -/
def natOfText (s : String) : Nat :=
  s.data.length

/-- JS truthiness of a number: 0 is falsy. -/
def natTruthy (n : Nat) : Bool :=
  n != 0

/-- Concrete Nat codec for evaluating theorems. -/
def natCodec : Codec Nat :=
  { stringify := natStringify, parse := natParse, ofText := natOfText,
    truthy := natTruthy }

/-- Concrete String codec (C1 runs uncompressed, so only `truthy` and the
identity cast matter). -/
def strCodec : Codec String :=
  { stringify := fun s => s, parse := fun _ => none, ofText := fun s => s,
    truthy := fun s => !s.isEmpty }

/-- Default options for Nat: no cap, strict equality, no compression. -/
def natCfg : Config Nat :=
  { maxHistorySize := none, equalFn := fun a b => a == b,
    compressHistory := false }

/-- Options for Nat with compression enabled. -/
def natCfgC : Config Nat :=
  { maxHistorySize := none, equalFn := fun a b => a == b,
    compressHistory := true }

/-- Options for Nat with `maxHistorySize = 1`. -/
def natCfgCap1 : Config Nat :=
  { maxHistorySize := some 1, equalFn := fun a b => a == b,
    compressHistory := false }

/-- Default options for String: no cap, strict equality, no compression. -/
def strCfg : Config String :=
  { maxHistorySize := none, equalFn := fun a b => a == b,
    compressHistory := false }

theorem run_append (cfg : Config T) (c : Codec T) (s : EngineState T)
    (l1 l2 : List (Op T)) :
    (run cfg c s (l1 ++ l2)).1 = (run cfg c (run cfg c s l1).1 l2).1 := by
  induction l1 generalizing s with
  | nil => rfl
  | cons op rest ih => simp [run, ih]

theorem limitPast_concat (m : Option Nat) (l : List α) (e : α) :
    ∃ l', limitPast m (l ++ [e]) = l' ++ [e] := by
  cases m with
  | none => exact ⟨l, rfl⟩
  | some k =>
    by_cases h : k ≠ 0 ∧ k < (l ++ [e]).length
    · refine ⟨l.drop ((l ++ [e]).length - k), ?_⟩
      simp only [limitPast, if_pos h]
      rw [List.drop_append_eq_append_drop]
      have hle : (l ++ [e]).length - k ≤ l.length := by
        simp only [List.length_append, List.length_singleton]
        omega
      rw [Nat.sub_eq_zero_of_le hle]
      rfl
    · exact ⟨l, by simp only [limitPast, if_neg h]⟩

theorem set_not_batching (cfg : Config T) (c : Codec T) (s : EngineState T)
    (v : T) (hb : s.isBatching = false)
    (hne : cfg.equalFn s.present v = false) :
    set cfg c s v =
      ({ s with past := limitPast cfg.maxHistorySize
                  (s.past ++ [encodeStored cfg c s.present]),
                present := v, future := [],
                isCompressed := cfg.compressHistory, isBatching := false },
       [Event.onSet s.present v]) := by
  simp [set, hne, hb]

theorem set_batching_no_error (cfg : Config T) (c : Codec T)
    (s : EngineState T) (v : T) (hb : s.isBatching = true)
    (he : s.errorInWithBatch = false)
    (hne : cfg.equalFn s.present v = false) :
    set cfg c s v =
      ({ s with batchLastValue := some v, present := v, future := [] }, []) := by
  cases hbi : s.batchInitialValue <;> simp [set, hne, hb, he, hbi]

theorem decompressFn_encodeStored (cfg : Config T) (c : Codec T) (v : T)
    (hrt : cfg.compressHistory = true → c.parse (c.stringify v) = some v) :
    decompressFn c (encodeStored cfg c v) cfg.compressHistory = v := by
  cases hc : cfg.compressHistory with
  | false => simp [encodeStored, decompressFn, hc]
  | true => simp [encodeStored, decompressFn, decompress, hc, hrt hc]

theorem undo_redo_present (cfg : Config T) (c : Codec T) (s : EngineState T)
    (l : List (StoredData T)) (e : StoredData T) (hp : s.past = l ++ [e]) :
    (run cfg c s [Op.undo, Op.redo]).1.present =
      decompressFn c
        (if s.isCompressed then StoredData.text (c.stringify s.present)
         else StoredData.raw s.present) s.isCompressed := by
  simp only [run, step, undo, hp, List.getLast?_concat]
  simp [redo]

/-- C1: starting from present "initial" with default options and no
batching, set("state 1"); set("state 2") yields present "state 2" and past
["initial", "state 1"] (oldest first, read through the decoded view); a
following undo yields present "state 1", past ["initial"], future
["state 2"]; a following redo yields present "state 2" and empty future. -/
theorem c1_literal_example :
    ((run strCfg strCodec (initialState strCfg "initial")
        [Op.set "state 1", Op.set "state 2"]).1).present = "state 2" ∧
    ((run strCfg strCodec (initialState strCfg "initial")
        [Op.set "state 1", Op.set "state 2"]).1).past.map
      (fun it => decompressFn strCodec it false) = ["initial", "state 1"] ∧
    ((run strCfg strCodec (initialState strCfg "initial")
        [Op.set "state 1", Op.set "state 2", Op.undo]).1).present = "state 1" ∧
    ((run strCfg strCodec (initialState strCfg "initial")
        [Op.set "state 1", Op.set "state 2", Op.undo]).1).past.map
      (fun it => decompressFn strCodec it false) = ["initial"] ∧
    ((run strCfg strCodec (initialState strCfg "initial")
        [Op.set "state 1", Op.set "state 2", Op.undo]).1).future.map
      (fun it => decompressFn strCodec it false) = ["state 2"] ∧
    ((run strCfg strCodec (initialState strCfg "initial")
        [Op.set "state 1", Op.set "state 2", Op.undo, Op.redo]).1).present =
      "state 2" ∧
    ((run strCfg strCodec (initialState strCfg "initial")
        [Op.set "state 1", Op.set "state 2", Op.undo, Op.redo]).1).future =
      [] := by
  decide

/-- C6: set with a value equal to present under equalFn returns the whole
state unchanged with no callback and no history entry, in every state
(batching or not); undo with empty past and redo with empty future likewise
return the unchanged state with no callback. -/
theorem c6_noop_conditions (cfg : Config T) (c : Codec T) (s : EngineState T)
    (v : T) :
    (cfg.equalFn s.present v = true → set cfg c s v = (s, [])) ∧
    (s.past = [] → undo c s = (s, [])) ∧
    (s.future = [] → redo c s = (s, [])) := by
  refine ⟨fun h => ?_, fun h => ?_, fun h => ?_⟩
  · simp [set, h]
  · simp [undo, h]
  · simp [redo, h]

/-- Witness for C6 at the fresh Nat state with present 5: setting 5 again,
undoing, and redoing are all exact no-ops. -/
theorem c6_witness :
    set natCfg natCodec (initialState natCfg 5) 5 = (initialState natCfg 5, []) ∧
    undo natCodec (initialState natCfg 5) = (initialState natCfg 5, []) ∧
    redo natCodec (initialState natCfg 5) = (initialState natCfg 5, []) :=
  ⟨(c6_noop_conditions natCfg natCodec (initialState natCfg 5) 5).1 (by decide),
   (c6_noop_conditions natCfg natCodec (initialState natCfg 5) 5).2.1 rfl,
   (c6_noop_conditions natCfg natCodec (initialState natCfg 5) 5).2.2 rfl⟩

/-- C9: the codec decode is total by construction; a stored snapshot that is
not text-typed is returned unchanged, and a text snapshot under compressed
encoding whose parse fails is returned as the raw text itself (cast to T)
rather than propagating an exception. -/
theorem c9_decode_total_fallback (c : Codec T) :
    (∀ (v : T) (b : Bool), decompressFn c (StoredData.raw v) b = v) ∧
    (∀ s : String, c.parse s = none →
      decompressFn c (StoredData.text s) true = c.ofText s) := by
  refine ⟨fun v b => rfl, fun s h => ?_⟩
  simp [decompressFn, decompress, h]

/-- Witness for C9 with the Nat codec: a raw snapshot decodes to itself, and
the unparsable text "b" decodes to its cast value. -/
theorem c9_witness :
    decompressFn natCodec (StoredData.raw 7) true = 7 ∧
    decompressFn natCodec (StoredData.text "b") true = natCodec.ofText "b" :=
  ⟨(c9_decode_total_fallback natCodec).1 7 true,
   (c9_decode_total_fallback natCodec).2 "b" (by decide)⟩

/-- C8: for every engine state, the history.past and history.future views
expose length equal to the number of stored snapshots, and an indexed read
and protocol iteration each return the decoded live value of the
corresponding stored snapshot — the codec's decode applied (by
construction of the trap, once) per accessed element, never a raw stored
snapshot — including when the state is compressed.  Iteration decodes
because the protocol calls the inherited iterator with the proxy as
receiver, so its element reads re-enter the string-key trap. -/
theorem c8_lazy_view_decoded (c : Codec T) (s : EngineState T) :
    (historyData c s).1 PropAccess.lengthProp = GetResult.len s.past.length ∧
    (historyData c s).2 PropAccess.lengthProp = GetResult.len s.future.length ∧
    (∀ n (h : n < s.past.length),
      (historyData c s).1 (PropAccess.index n) =
        GetResult.val (some (decompressFn c (s.past.get ⟨n, h⟩) s.isCompressed))) ∧
    (∀ n (h : n < s.future.length),
      (historyData c s).2 (PropAccess.index n) =
        GetResult.val (some (decompressFn c (s.future.get ⟨n, h⟩) s.isCompressed))) ∧
    (historyData c s).1 PropAccess.symIter =
      GetResult.seqDecoded
        (s.past.map (fun it => decompressFn c it s.isCompressed)) ∧
    (historyData c s).2 PropAccess.symIter =
      GetResult.seqDecoded
        (s.future.map (fun it => decompressFn c it s.isCompressed)) := by
  refine ⟨rfl, rfl, fun n h => ?_, fun n h => ?_, rfl, rfl⟩
  · simp only [historyData, lazyArrayGet, List.get?_eq_get h, Option.map_some']
  · simp only [historyData, lazyArrayGet, List.get?_eq_get h, Option.map_some']

/-- Witness for C8 at a compressed state holding one encoded snapshot in
past and one in future: the indexed reads decode (to 3 and 2) and
iteration observes the decoded sequences. -/
theorem c8_witness :
    (historyData natCodec
      { past := [StoredData.text "aaa"], present := 0,
        future := [StoredData.text "aa"], isCompressed := true,
        isBatching := false, batchCount := 0, batchInitialValue := none,
        batchLastValue := none, errorInWithBatch := false }).1
      (PropAccess.index 0) = GetResult.val (some 3) ∧
    (historyData natCodec
      { past := [StoredData.text "aaa"], present := 0,
        future := [StoredData.text "aa"], isCompressed := true,
        isBatching := false, batchCount := 0, batchInitialValue := none,
        batchLastValue := none, errorInWithBatch := false }).2
      (PropAccess.index 0) = GetResult.val (some 2) ∧
    (historyData natCodec
      { past := [StoredData.text "aaa"], present := 0,
        future := [StoredData.text "aa"], isCompressed := true,
        isBatching := false, batchCount := 0, batchInitialValue := none,
        batchLastValue := none, errorInWithBatch := false }).1
      PropAccess.symIter = GetResult.seqDecoded [3] := by
  have h := c8_lazy_view_decoded natCodec
    { past := [StoredData.text "aaa"], present := 0,
      future := [StoredData.text "aa"], isCompressed := true,
      isBatching := false, batchCount := 0, batchInitialValue := none,
      batchLastValue := none, errorInWithBatch := false }
  exact ⟨h.2.2.1 0 (by decide), h.2.2.2.1 0 (by decide), h.2.2.2.2.1⟩

/-- C5 (code bug evaluation): with maxHistorySize 1, the reachable call
sequence set(2); startBatch; withBatch(fn) with fn doing undo(); redo() and
then throwing (the catch marks the error, the finally calls endBatch, which
is a no-op because undo turned isBatching off); startBatch; set(3) leaves
past with 2 entries: the error-path append in set applies no eviction, so
the configured cap of 1 is exceeded. -/
theorem c5_eviction_cap_violated :
    natCfgCap1.maxHistorySize = some 1 ∧
    ((run natCfgCap1 natCodec (initialState natCfgCap1 1)
        [Op.set 2, Op.startBatch, Op.startBatch, Op.undo, Op.redo,
         Op.markError, Op.endBatch, Op.startBatch, Op.set 3]).1).past.length =
      2 := by
  decide

/-- C2: from any non-batching state, for values v1 distinct from present and
v2 distinct from v1 under equalFn, set(v1); set(v2); undo(); redo() yields
the same present value as set(v1); set(v2) alone.  For the compressed
encoding this relies on the serialization contract that parse inverts
stringify on the stored value. -/
theorem c2_symmetry (cfg : Config T) (c : Codec T) (s : EngineState T)
    (v1 v2 : T) (hb : s.isBatching = false)
    (h1 : cfg.equalFn s.present v1 = false)
    (h2 : cfg.equalFn v1 v2 = false)
    (hrt : cfg.compressHistory = true → c.parse (c.stringify v2) = some v2) :
    (run cfg c s [Op.set v1, Op.set v2, Op.undo, Op.redo]).1.present =
    (run cfg c s [Op.set v1, Op.set v2]).1.present := by
  have hsplit :
      (run cfg c s [Op.set v1, Op.set v2, Op.undo, Op.redo]).1 =
        (run cfg c (run cfg c s [Op.set v1, Op.set v2]).1 [Op.undo, Op.redo]).1 :=
    run_append cfg c s [Op.set v1, Op.set v2] [Op.undo, Op.redo]
  have hrun2 : (run cfg c s [Op.set v1, Op.set v2]).1 =
      (set cfg c (set cfg c s v1).1 v2).1 := rfl
  rw [hsplit, hrun2]
  rw [set_not_batching cfg c s v1 hb h1]
  rw [set_not_batching cfg c _ v2 rfl h2]
  obtain ⟨l', hl'⟩ := limitPast_concat cfg.maxHistorySize
    (limitPast cfg.maxHistorySize (s.past ++ [encodeStored cfg c s.present]))
    (encodeStored cfg c v1)
  rw [undo_redo_present cfg c _ l' (encodeStored cfg c v1) hl']
  have henc : (if cfg.compressHistory then StoredData.text (c.stringify v2)
      else StoredData.raw v2) = encodeStored cfg c v2 := rfl
  simp only [henc]
  exact decompressFn_encodeStored cfg c v2 hrt

/-- Witness for C2 with the Nat codec under compression: starting fresh at 0
and setting 1 then 2, undo followed by redo restores present 2. -/
theorem c2_witness :
    (run natCfgC natCodec (initialState natCfgC 0)
        [Op.set 1, Op.set 2, Op.undo, Op.redo]).1.present =
    (run natCfgC natCodec (initialState natCfgC 0) [Op.set 1, Op.set 2]).1.present :=
  c2_symmetry natCfgC natCodec (initialState natCfgC 0) 1 2 rfl (by decide)
    (by decide) (fun _ => by decide)

/-- C7 (counterexample): endBatch called in an error state with nesting
depth 2 (past [1], present 2, baseline captured as 2) leaves isBatching
true and the batch baseline still set, contradicting the claim that the
machine returns to Idle (isBatching false, context cleared) regardless of
the remaining depth. -/
theorem c7_counterexample :
    (endBatch natCfg natCodec
      { past := [StoredData.raw 1], present := 2, future := [],
        isCompressed := false, isBatching := true, batchCount := 2,
        batchInitialValue := some 2, batchLastValue := some 2,
        errorInWithBatch := true }).1.isBatching = true ∧
    (endBatch natCfg natCodec
      { past := [StoredData.raw 1], present := 2, future := [],
        isCompressed := false, isBatching := true, batchCount := 2,
        batchInitialValue := some 2, batchLastValue := some 2,
        errorInWithBatch := true }).1.batchInitialValue = some 2 := by
  decide

/-- C7 (amended): when endBatch runs while a batch is open and the error
flag is set, the nested-return no-op is skipped and the commit logic runs
at that call: the error flag is cleared and the nesting depth decremented;
however the machine returns to Idle (isBatching false) exactly when the
decremented depth is zero — at greater depth isBatching remains true and
the batch context is retained. -/
theorem c7_endbatch_error_amended (cfg : Config T) (c : Codec T)
    (s : EngineState T) (hb : s.isBatching = true)
    (he : s.errorInWithBatch = true) :
    (endBatch cfg c s).1.errorInWithBatch = false ∧
    (endBatch cfg c s).1.batchCount = s.batchCount - 1 ∧
    (endBatch cfg c s).1.isBatching = decide (s.batchCount - 1 > 0) := by
  unfold endBatch
  cases hbi : s.batchInitialValue with
  | none => simp [hb, he]
  | some b =>
    by_cases ht : c.truthy b = false
    · simp [hb, he, ht]
    · by_cases heq : cfg.equalFn b s.present = true
      · simp [hb, he, ht, heq]
      · by_cases hd : dedupAppend cfg c s.past s.isCompressed b = true
        · simp [hb, he, ht, heq, hd]
        · simp [hb, he, ht, heq, hd]

/-- Witness for C7 at a concrete error state of depth 2: after endBatch the
error flag is cleared, the depth is 1, and isBatching is still true. -/
theorem c7_witness :
    (endBatch natCfg natCodec
      { past := [StoredData.raw 1], present := 3, future := [],
        isCompressed := false, isBatching := true, batchCount := 2,
        batchInitialValue := some 2, batchLastValue := some 3,
        errorInWithBatch := true }).1.errorInWithBatch = false ∧
    (endBatch natCfg natCodec
      { past := [StoredData.raw 1], present := 3, future := [],
        isCompressed := false, isBatching := true, batchCount := 2,
        batchInitialValue := some 2, batchLastValue := some 3,
        errorInWithBatch := true }).1.batchCount = 2 - 1 ∧
    (endBatch natCfg natCodec
      { past := [StoredData.raw 1], present := 3, future := [],
        isCompressed := false, isBatching := true, batchCount := 2,
        batchInitialValue := some 2, batchLastValue := some 3,
        errorInWithBatch := true }).1.isBatching = decide (2 - 1 > 0) :=
  c7_endbatch_error_amended natCfg natCodec _ rfl rfl

/-- C3 (counterexample): from the fresh Nat state with present 0 — a
JS-falsy value — startBatch; set 1; set 2; set 3; endBatch appends nothing
to past and fires no onSet at all, because endBatch's guard
`if (!batchInitialValueRef.current)` treats the falsy baseline 0 as absent
and skips the whole commit; the claim asserts exactly one past entry and
exactly one onSet call for every non-batching starting state. -/
theorem c3_counterexample :
    (run natCfg natCodec (initialState natCfg 0)
      [Op.startBatch, Op.set 1, Op.set 2, Op.set 3, Op.endBatch]).1.past = [] ∧
    (run natCfg natCodec (initialState natCfg 0)
      [Op.startBatch, Op.set 1, Op.set 2, Op.set 3, Op.endBatch]).2 = [] := by
  decide

/-- C3 (amended): from an idle state, startBatch; set a; set b; set c;
endBatch appends exactly one entry to past — the encoded pre-batch present,
subject to eviction — clears future, leaves present c, and fires onSet
exactly once with (pre-batch present, c), with no onSet for the inner sets;
provided additionally that c is distinct from the pre-batch present under
equalFn (otherwise the batch is a no-op commit), that the pre-batch present
and c are JS-truthy (the source guards the commit and the callback with
truthiness checks on the refs), and that the top of past does not decode
equal to the pre-batch present under equalFn (the commit dedup). -/
theorem c3_batch_collapse_amended (cfg : Config T) (c : Codec T)
    (s : EngineState T) (a b c' : T) (hidle : Idle s)
    (h1 : cfg.equalFn s.present a = false)
    (h2 : cfg.equalFn a b = false)
    (h3 : cfg.equalFn b c' = false)
    (h4 : cfg.equalFn s.present c' = false)
    (h5 : c.truthy s.present = true)
    (h6 : c.truthy c' = true)
    (h7 : dedupAppend cfg c s.past s.isCompressed s.present = true) :
    (run cfg c s [Op.startBatch, Op.set a, Op.set b, Op.set c', Op.endBatch]).1 =
      { past := limitPast cfg.maxHistorySize
          (s.past ++ [encodeStored cfg c s.present]),
        present := c', future := [], isCompressed := cfg.compressHistory,
        isBatching := false, batchCount := 0, batchInitialValue := none,
        batchLastValue := none, errorInWithBatch := false } ∧
    (run cfg c s [Op.startBatch, Op.set a, Op.set b, Op.set c', Op.endBatch]).2 =
      [Event.onSet s.present c'] := by
  obtain ⟨hb0, hc0, he0⟩ := hidle
  constructor <;>
    simp [run, step, startBatch, set, endBatch, hb0, hc0, he0,
      h1, h2, h3, h4, h5, h6, h7]

/-- Witness for C3 with the Nat codec, from the fresh state with present 1
and inner values 2, 3, 4. -/
theorem c3_witness :
    (run natCfg natCodec (initialState natCfg 1)
      [Op.startBatch, Op.set 2, Op.set 3, Op.set 4, Op.endBatch]).1 =
      { past := limitPast natCfg.maxHistorySize
          ((initialState natCfg 1).past ++
            [encodeStored natCfg natCodec (initialState natCfg 1).present]),
        present := 4, future := [], isCompressed := natCfg.compressHistory,
        isBatching := false, batchCount := 0, batchInitialValue := none,
        batchLastValue := none, errorInWithBatch := false } ∧
    (run natCfg natCodec (initialState natCfg 1)
      [Op.startBatch, Op.set 2, Op.set 3, Op.set 4, Op.endBatch]).2 =
      [Event.onSet (initialState natCfg 1).present 4] :=
  c3_batch_collapse_amended natCfg natCodec (initialState natCfg 1) 2 3 4
    ⟨rfl, rfl, rfl⟩ (by decide) (by decide) (by decide) (by decide)
    (by decide) (by decide) (by decide)

/-- C4 (counterexample): withBatch performing set(1) and then throwing, run
from the fresh Nat state with present 0 — a JS-falsy value — leaves past
empty, so canUndo is false afterwards; the claim asserts canUndo is true
and the pre-batch value committed to past for every state and distinct x. -/
theorem c4_counterexample :
    (withBatchSetThrow natCfg natCodec (initialState natCfg 0) 1).1.1.past = [] ∧
    (withBatchSetThrow natCfg natCodec (initialState natCfg 0) 1).1.1.present =
      1 := by
  decide

/-- C4 (amended): from an idle state whose present is JS-truthy and whose
top-of-past does not decode equal to the present (the commit dedup), for x
distinct from present under equalFn, withBatch with a callback performing
set(x) and then throwing propagates the error, and afterwards past is the
old past with the encoded pre-batch present appended (subject to eviction),
hence nonempty (canUndo is true), and present equals x. -/
theorem c4_withbatch_error_amended (cfg : Config T) (c : Codec T)
    (s : EngineState T) (x : T) (hidle : Idle s)
    (hne : cfg.equalFn s.present x = false)
    (ht : c.truthy s.present = true)
    (hd : dedupAppend cfg c s.past s.isCompressed s.present = true) :
    (withBatchSetThrow cfg c s x).2 = true ∧
    (withBatchSetThrow cfg c s x).1.1.past =
      limitPast cfg.maxHistorySize (s.past ++ [encodeStored cfg c s.present]) ∧
    (withBatchSetThrow cfg c s x).1.1.past ≠ [] ∧
    (withBatchSetThrow cfg c s x).1.1.present = x := by
  obtain ⟨hb0, hc0, he0⟩ := hidle
  have hpast : (withBatchSetThrow cfg c s x).1.1.past =
      limitPast cfg.maxHistorySize (s.past ++ [encodeStored cfg c s.present]) := by
    simp [withBatchSetThrow, run, step, startBatch, set, endBatch,
      hb0, hc0, he0, hne, ht, hd]
  refine ⟨rfl, hpast, ?_, ?_⟩
  · rw [hpast]
    obtain ⟨l', hl'⟩ := limitPast_concat cfg.maxHistorySize s.past
      (encodeStored cfg c s.present)
    rw [hl']
    simp
  · simp [withBatchSetThrow, run, step, startBatch, set, endBatch,
      hb0, hc0, he0, hne, ht, hd]

/-- Witness for C4 with the Nat codec, from the fresh state with present 1
and x = 2. -/
theorem c4_witness :
    (withBatchSetThrow natCfg natCodec (initialState natCfg 1) 2).2 = true ∧
    (withBatchSetThrow natCfg natCodec (initialState natCfg 1) 2).1.1.past =
      limitPast natCfg.maxHistorySize
        ((initialState natCfg 1).past ++
          [encodeStored natCfg natCodec (initialState natCfg 1).present]) ∧
    (withBatchSetThrow natCfg natCodec (initialState natCfg 1) 2).1.1.past ≠ [] ∧
    (withBatchSetThrow natCfg natCodec (initialState natCfg 1) 2).1.1.present =
      2 :=
  c4_withbatch_error_amended natCfg natCodec (initialState natCfg 1) 2
    ⟨rfl, rfl, rfl⟩ (by decide) (by decide) (by decide)

/-- C10 (counterexample): in the state reached by startBatch from the fresh
Nat state (empty past, isBatching true), undo is a no-op and leaves
isBatching true; the claim asserts undo sets isBatching to false. -/
theorem c10_counterexample :
    (undo natCodec (startBatch (initialState natCfg 1)).1).1.isBatching =
      true := by
  decide

/-- C10 (amended): undo and redo never touch the batch refs — the nesting
counter, the captured baseline, the last-value record, and the error flag
are unchanged by both, in every state; when they actually perform a step
(nonempty past for undo, nonempty future for redo) they set isBatching to
false, while no-op invocations return the state unchanged; reset clears the
whole batch context. -/
theorem c10_undo_redo_batch_context (cfg : Config T) (c : Codec T)
    (s : EngineState T) (v : T) :
    (undo c s).1.batchCount = s.batchCount ∧
    (undo c s).1.batchInitialValue = s.batchInitialValue ∧
    (undo c s).1.batchLastValue = s.batchLastValue ∧
    (undo c s).1.errorInWithBatch = s.errorInWithBatch ∧
    (s.past ≠ [] → (undo c s).1.isBatching = false) ∧
    (redo c s).1.batchCount = s.batchCount ∧
    (redo c s).1.batchInitialValue = s.batchInitialValue ∧
    (redo c s).1.batchLastValue = s.batchLastValue ∧
    (redo c s).1.errorInWithBatch = s.errorInWithBatch ∧
    (s.future ≠ [] → (redo c s).1.isBatching = false) ∧
    (reset cfg v).batchCount = 0 ∧
    (reset cfg v).batchInitialValue = none ∧
    (reset cfg v).batchLastValue = none ∧
    (reset cfg v).errorInWithBatch = false ∧
    (reset cfg v).isBatching = false := by
  have hu : (undo c s).1.batchCount = s.batchCount ∧
      (undo c s).1.batchInitialValue = s.batchInitialValue ∧
      (undo c s).1.batchLastValue = s.batchLastValue ∧
      (undo c s).1.errorInWithBatch = s.errorInWithBatch ∧
      (s.past ≠ [] → (undo c s).1.isBatching = false) := by
    cases hpast : s.past.getLast? with
    | none =>
      have hnil : s.past = [] := List.getLast?_eq_none_iff.mp hpast
      simp [undo, hpast, hnil]
    | some e => simp [undo, hpast]
  have hr : (redo c s).1.batchCount = s.batchCount ∧
      (redo c s).1.batchInitialValue = s.batchInitialValue ∧
      (redo c s).1.batchLastValue = s.batchLastValue ∧
      (redo c s).1.errorInWithBatch = s.errorInWithBatch ∧
      (s.future ≠ [] → (redo c s).1.isBatching = false) := by
    cases hfut : s.future with
    | nil => simp [redo, hfut]
    | cons e rest => simp [redo, hfut]
  obtain ⟨hu1, hu2, hu3, hu4, hu5⟩ := hu
  obtain ⟨hr1, hr2, hr3, hr4, hr5⟩ := hr
  exact ⟨hu1, hu2, hu3, hu4, hu5, hr1, hr2, hr3, hr4, hr5,
    rfl, rfl, rfl, rfl, rfl⟩

/-- Witness for C10 at a concrete state with nonempty past and future and a
live batch context of depth 5. -/
theorem c10_witness :
    (undo natCodec
      { past := [StoredData.raw 1], present := 2,
        future := [StoredData.raw 3], isCompressed := false,
        isBatching := false, batchCount := 5, batchInitialValue := some 4,
        batchLastValue := some 6, errorInWithBatch := true }).1.batchCount =
      5 ∧
    (undo natCodec
      { past := [StoredData.raw 1], present := 2,
        future := [StoredData.raw 3], isCompressed := false,
        isBatching := false, batchCount := 5, batchInitialValue := some 4,
        batchLastValue := some 6, errorInWithBatch := true }).1.isBatching =
      false ∧
    (redo natCodec
      { past := [StoredData.raw 1], present := 2,
        future := [StoredData.raw 3], isCompressed := false,
        isBatching := false, batchCount := 5, batchInitialValue := some 4,
        batchLastValue := some 6, errorInWithBatch := true }).1.isBatching =
      false ∧
    (reset natCfg (0 : Nat)).batchCount = 0 := by
  have h := c10_undo_redo_batch_context natCfg natCodec
    { past := [StoredData.raw 1], present := 2,
      future := [StoredData.raw 3], isCompressed := false,
      isBatching := false, batchCount := 5, batchInitialValue := some 4,
      batchLastValue := some 6, errorInWithBatch := true } (0 : Nat)
  exact ⟨h.1, h.2.2.2.2.1 (by decide), h.2.2.2.2.2.2.2.2.2.1 (by decide),
    h.2.2.2.2.2.2.2.2.2.2.1⟩

end UndoRedo
